import Mathlib

/-!
Verification development for the `planlector` PDF-generation scripts.

The definitions below are a shallow embedding, in Lean, of the Python code in
`scripts/generar_pdfs_comic.py` and `scripts/imagerouter_client.py`:

* the Markdown segmentation (`parse_markdown` and its helpers),
* the paragraph-selection heuristic (`select_key_paragraphs`),
* the geometric core of the layout routine (`ComicPDF.flow_paragraph_with_image`),
* the prompt-keyed image cache (`obtener_imagen`),
* the provider client paths (`_post_openai_images`, `_post_hf_bytes`,
  `generate_image_via_imagerouter`), and
* the batch loop of `main` / `generar_pdf_de_md`.

Conventions: Python `float` arithmetic is modelled exactly — over `ℚ` for the
page geometry, and over `ℤ` in fixed units of `1/2000` for the paragraph
scores (all score constants are decimal multiples of `1/10` plus `len/400`, so
the scaling is exact and order comparisons are unchanged); Python strings are
Lean `String`s; `str.splitlines` is modelled for `'\n'`-terminated lines (the
only terminator occurring in the inputs considered here); `\s` and `str.strip`
use the ASCII whitespace set.
-/

set_option maxRecDepth 100000

/-- ASCII whitespace, as matched by Python's `\s` and stripped by `str.strip`. -/
def pySpace (c : Char) : Bool :=
  c = ' ' ∨ c = '\t' ∨ c = '\n' ∨ c = '\r' ∨ c = Char.ofNat 11 ∨ c = Char.ofNat 12

/-- `str.strip()` on a character list: drop whitespace from both ends. -/
def pyStripL (cs : List Char) : List Char :=
  ((cs.dropWhile pySpace).reverse.dropWhile pySpace).reverse

/-- `str.strip()` on a `String`. -/
def pyStrip (s : String) : String := ⟨pyStripL s.toList⟩

/-- `str.lower()` (ASCII letters; the marker word compared against is ASCII). -/
def pyLower (s : String) : String := ⟨s.toList.map Char.toLower⟩

/-- Split a character list at every `'\n'`. -/
def splitOnNl (cs : List Char) : List (List Char) :=
  let p := cs.foldr
    (fun c acc =>
      if c = '\n' then (([] : List Char), acc.1 :: acc.2) else (c :: acc.1, acc.2))
    ([], [])
  p.1 :: p.2

/-- `str.splitlines()` for `'\n'`-terminated lines: empty text gives no lines,
and a trailing `'\n'` does not open a final empty line. -/
def pySplitlines (s : String) : List String :=
  let cs := s.toList
  if cs.isEmpty then []
  else
    let parts := splitOnNl cs
    let parts := if cs.getLast? = some '\n' then parts.dropLast else parts
    parts.map (fun l => (⟨l⟩ : String))

/-- One parsed block: `type` is `"h1"`..`"h6"` or `"p"`, exactly as in the
Python `Block` dataclass. -/
structure Block where
  type : String
  text : String
deriving Repr, DecidableEq

/-- `HEADING_RE = ^\s*(#{1,6})\s+(.*)\s*$` applied to one line, returning the
heading level and the stripped heading text (`m.group(2).strip()`).  Seven or
more leading `#` never match (no whitespace can follow any run of 1–6 `#`). -/
def headingMatch (line : List Char) : Option (Nat × String) :=
  let rest := line.dropWhile pySpace
  let k := (rest.takeWhile (fun c => c = '#')).length
  let after := rest.dropWhile (fun c => c = '#')
  match after with
  | c :: _ => if 1 ≤ k ∧ k ≤ 6 ∧ pySpace c then some (k, ⟨pyStripL after⟩) else none
  | [] => none

/-- Loop state of `parse_markdown`, one field per Python local. -/
structure ParseState where
  blocks : List Block
  actividades : List String
  current_para : List String
  title_h1 : Option String
  in_actividades : Bool
  last_line_blank : Bool
deriving Repr, DecidableEq

def ParseState.init : ParseState := ⟨[], [], [], none, false, false⟩

/-- `"\n".join(...)` on character lists. -/
def joinNl : List (List Char) → List Char
  | [] => []
  | [x] => x
  | x :: y :: rest => x ++ '\n' :: joinNl (y :: rest)

/-- `flush_para`: a non-empty paragraph buffer becomes one `'p'` block whose
text is `"\n".join(current_para).strip()`. -/
def flush_para (st : ParseState) : ParseState :=
  if st.current_para.isEmpty then st
  else
    { st with
      blocks := st.blocks ++
        [⟨"p", ⟨pyStripL (joinNl (st.current_para.map String.toList))⟩⟩],
      current_para := [] }

/-- Python truthiness of `not title_h1`: `None` and `""` are both falsy. -/
def titleUnset : Option String → Bool
  | none => true
  | some s => s = ""

/-- The body of `parse_markdown`'s `for line in lines` loop. -/
def parseLine (st : ParseState) (line : String) : ParseState :=
  match headingMatch line.toList with
  | some (lvl, t) =>
    let st1 := flush_para st
    { st1 with
      title_h1 := if lvl = 1 ∧ titleUnset st1.title_h1 then some t else st1.title_h1,
      in_actividades := if lvl = 2 then pyLower t = "actividades" else st1.in_actividades,
      blocks := st1.blocks ++ [⟨"h" ++ toString lvl, t⟩],
      last_line_blank := false }
  | none =>
    if st.in_actividades then
      let s := pyStrip line
      { st with
        actividades := if s ≠ "" then st.actividades ++ [s] else st.actividades,
        last_line_blank := (s = "") }
    else if pyStrip line = "" then
      let st1 := if ¬ st.last_line_blank then flush_para st else st
      { st1 with last_line_blank := true }
    else
      { st with current_para := st.current_para ++ [line], last_line_blank := false }

/-- `parse_markdown(text) -> (blocks, actividades, title_h1 or "")`. -/
def parse_markdown (text : String) : List Block × List String × String :=
  let st := (pySplitlines text).foldl parseLine ParseState.init
  let st := flush_para st
  (st.blocks, st.actividades, (st.title_h1.getD ""))

/-- Substring test (Python's `pat in s`). -/
def containsSub : List Char → List Char → Bool
  | [], pat => pat.isEmpty
  | h :: t, pat => pat.isPrefixOf (h :: t) || containsSub t pat

/-- `kw in text` on `String`s. -/
def strContains (s pat : String) : Bool := containsSub s.toList pat.toList

/-- The fixed keyword list of `select_key_paragraphs`. -/
def KEYWORDS : List String :=
  ["definición", "concepto", "importante", "clave", "conclusión", "ejemplo", "problema"]

/-- `re.match(r'^\s*([-*+]|\d+\.)\s+', text)`: bullet alternative. -/
def bulletStart : List Char → Bool
  | c :: d :: _ => (c = '-' ∨ c = '*' ∨ c = '+') ∧ pySpace d
  | _ => false

/-- `re.match(r'^\s*([-*+]|\d+\.)\s+', text)`: numbered-list alternative. -/
def numberedStart (r : List Char) : Bool :=
  let ds := r.takeWhile Char.isDigit
  match r.dropWhile Char.isDigit with
  | '.' :: e :: _ => ¬ds.isEmpty ∧ pySpace e
  | _ => false

/-- The whole list-item test of the scoring loop. -/
def isListItem (s : String) : Bool :=
  let r := s.toList.dropWhile pySpace
  bulletStart r || numberedStart r

/-- `"```" in text or re.search(r'`{1,3}', text)`: both reduce to "contains at
least one backtick character". -/
def hasBacktick (s : String) : Bool := s.toList.any (fun c => c = Char.ofNat 96)

/-- `min` with an explicit, kernel-reducible conditional. -/
def intMin (a b : ℤ) : ℤ := if a ≤ b then a else b

/-- The score assigned to one paragraph text, given the level of the last
heading seen before it (`last_heading_level`).  The float score is an exact
sum of multiples of `1/2000`, so it is modelled in units of `1/2000`:
`len/400 = 5·len`, `1.5 = 3000`, `0.6 = 1200`, `0.7 = 1400`, `0.8 = 1600`,
`1.0 = 2000`.  Order comparisons between scores are unchanged by the scaling. -/
def scorePara (text : String) (hlevel : Option Nat) : ℤ :=
  (intMin (5 * (text.length : ℤ)) 3000)
    + (if hlevel = some 2 ∨ hlevel = some 3 then 1200 else 0)
    + (if KEYWORDS.any (fun kw => strContains (pyLower text) kw) then 1400 else 0)
    + (if (pyStrip text).length < 80 then -1200 else 0)
    + (if isListItem text then -1600 else 0)
    + (if hasBacktick text then -2000 else 0)

/-- `int(b.type[1])` after `b.type.startswith("h")`: heading level of a block
kind string (`"h2" ↦ 2`); `none` for non-heading kinds. -/
def kindHeadingLevel (ty : String) : Option Nat :=
  match ty.toList with
  | 'h' :: c :: _ => some (c.toNat - 48)
  | _ => none

/-- The first loop of `select_key_paragraphs`: collect `para_texts`, the list
of `(i, b.text, last_heading_level)` triples over the paragraph blocks.  The
loop's other accumulator, `paragraph_indices`, is its first projection. -/
def paraScan : List Block → Nat → Option Nat → List (Nat × String × Option Nat)
  | [], _, _ => []
  | b :: bs, i, lastH =>
    match kindHeadingLevel b.type with
    | some l => paraScan bs (i + 1) (some l)
    | none =>
      if b.type = "p" then (i, b.text, lastH) :: paraScan bs (i + 1) lastH
      else paraScan bs (i + 1) lastH

/-- Insert into a score-descending list, before the first strictly smaller
score (the element being inserted is the originally earlier one, so this is
the stable descending order of Python's `sorted(..., reverse=True)`). -/
def insertDesc (x : Nat × ℤ) : List (Nat × ℤ) → List (Nat × ℤ)
  | [] => [x]
  | y :: ys => if x.2 ≥ y.2 then x :: y :: ys else y :: insertDesc x ys

/-- Stable descending sort by score. -/
def isortDesc : List (Nat × ℤ) → List (Nat × ℤ)
  | [] => []
  | x :: xs => insertDesc x (isortDesc xs)

/-- Ascending insertion for the final `top_block_idxs.sort()`. -/
def insertAsc (x : Nat) : List Nat → List Nat
  | [] => [x]
  | y :: ys => if x ≤ y then x :: y :: ys else y :: insertAsc x ys

def isortAsc : List Nat → List Nat
  | [] => []
  | x :: xs => insertAsc x (isortAsc xs)

/-- `select_key_paragraphs(blocks, max_images)`: the returned set of block
indices, represented as its ascending enumeration (the indices are distinct,
so the sorted list determines the Python `set`). -/
def select_key_paragraphs (blocks : List Block) (max_images : Nat) : List Nat :=
  let para_texts := paraScan blocks 0 none
  let paragraph_indices := para_texts.map (fun p => p.1)
  let scored := para_texts.map (fun p => scorePara p.2.1 p.2.2)
  let ranked := (isortDesc scored.enum).take max_images
  let top := ranked.map (fun p => paragraph_indices.getD p.1 0)
  isortAsc top

/-- Following the spec's words (§4.1, §6): a manual-image-directive line is a
line whose (case-insensitive) text begins with the `![prompt]` tag.  The
Python parser has no corresponding block kind; this definition exists only to
compare the spec's claimed behavior with the code's. -/
def specImageDirectiveLine (s : String) : Bool :=
  "![prompt]".toList.isPrefixOf (pyLower s).toList

/-- Following the spec's words (§4.2): the variant of the scan in which the
`+0.6` bonus is available only to the paragraph immediately following a
heading — the recorded heading level is cleared once a paragraph consumes
it.  Used to contrast with the code's `paraScan`. -/
def specParaScanImmediate : List Block → Nat → Option Nat → List (Nat × String × Option Nat)
  | [], _, _ => []
  | b :: bs, i, lastH =>
    match kindHeadingLevel b.type with
    | some l => specParaScanImmediate bs (i + 1) (some l)
    | none =>
      if b.type = "p" then (i, b.text, lastH) :: specParaScanImmediate bs (i + 1) none
      else specParaScanImmediate bs (i + 1) lastH

/-- The selector as the spec describes the `+0.6` bonus (immediate-successor
paragraphs only); identical to `select_key_paragraphs` in every other way. -/
def specSelectImmediateBonus (blocks : List Block) (max_images : Nat) : List Nat :=
  let para_texts := specParaScanImmediate blocks 0 none
  let paragraph_indices := para_texts.map (fun p => p.1)
  let scored := para_texts.map (fun p => scorePara p.2.1 p.2.2)
  let ranked := (isortDesc scored.enum).take max_images
  let top := ranked.map (fun p => paragraph_indices.getD p.1 0)
  isortAsc top

/-!
## Layout model

`ComicPDF` is constructed with `orientation="P", format="A4"` (210×297 mm),
`set_margins(18, 18, 18)` and `set_auto_page_break(auto=True, margin=16)`.
`flow_paragraph_with_image` is modelled as a pure function of the current
cursor height and the measured wrapped-line count: the dry-run `multi_cell`
measurement is an opaque collaborator (fpdf's word-wrap), so the number of
wrapped lines enters as a parameter `nLines`, and the final `multi_cell`
placement is modelled by its measured height (no fpdf-internal auto break:
the content of interest fits one page in every statement below).
-/

def pageW : ℚ := 210
def pageH : ℚ := 297
def lMargin : ℚ := 18
def rMargin : ℚ := 18
def tMargin : ℚ := 18
def bMargin : ℚ := 16

/-- `self.w - l - r` = 174 mm. -/
def usableW : ℚ := pageW - lMargin - rMargin

/-- `bottom = self.h - self.b_margin` = 281 mm. -/
def pageBottomLimit : ℚ := pageH - bMargin

/-- Observable outcome of one `flow_paragraph_with_image` call. -/
structure FlowResult where
  brokePage : Bool   -- whether `add_page()` ran before placing anything
  imgW : ℚ           -- image width actually used (0 after the narrow fallback)
  textW : ℚ          -- column width the text is placed at
  textH : ℚ          -- measured text height
  imgH : ℚ           -- image height from the aspect ratio
  neededH : ℚ        -- `max(text_h, img_h)`
  yStart : ℚ         -- y the content is placed at
  yFinal : ℚ         -- cursor y after `set_xy(l, y_next)`

/-- `ComicPDF.flow_paragraph_with_image`, geometric core.  `y` is `get_y()` on
entry; `nLines` the dry-run wrapped line count; `iw × ih` the image's pixel
size (`img_h = img_w * ih/iw`, from `_pil_to_temp_jpg`). -/
def flow_paragraph_with_image (y img_w_mm gutter_mm line_h : ℚ)
    (nLines iw ih : ℕ) : FlowResult :=
  let text_w0 := usableW - img_w_mm - gutter_mm
  let text_w := if text_w0 < 48 then usableW else text_w0
  let img_w := if text_w0 < 48 then 0 else img_w_mm
  let text_h := (nLines : ℚ) * line_h
  let img_h := if 0 < img_w then (if iw = 0 then img_w else img_w * (ih : ℚ) / (iw : ℚ)) else 0
  let needed := max text_h img_h
  let broke := pageBottomLimit < y + needed
  let y0 := if pageBottomLimit < y + needed then tMargin else y
  let y_next := max (y0 + img_h) (y0 + text_h) + 4
  ⟨decide broke, img_w, text_w, text_h, img_h, needed, y0, y_next⟩

/-!
## Image acquisition: provider client and prompt-keyed cache

`generate_image_via_imagerouter` does network I/O; its observable behavior is
modelled against a response oracle.  Decoded rasters are abstracted to an
`ImgData` carrying an identity and a "PIL can open this" flag.
-/

/-- Abstract image bytes: `uid` identifies the content, `decodable` says
whether `Image.open` succeeds on them. -/
structure ImgData where
  decodable : Bool
  uid : Nat
deriving Repr, DecidableEq

/-- Outcome of one `generate_image_via_imagerouter` call, as seen by
`obtener_imagen`: normal return, `ImageRouterBillingRequired`, or any other
exception (`ImageRouterError`, network error, …). -/
inductive FetchOutcome where
  | ok (img : ImgData)
  | billing (msg : String)
  | fail (msg : String)
deriving Repr, DecidableEq

/-- What `obtener_imagen` produces: a fetched/cached image, the placeholder
drawn in the `except Exception` arm, or a re-raised billing error. -/
inductive ImgResult where
  | real (img : ImgData)
  | placeholder
  | raisedBilling (msg : String)
deriving Repr, DecidableEq

/-- Cache directory plus the count of provider calls made so far; `store` maps
the cache filename stem `h` to the stored bytes. -/
structure CacheSt where
  store : List (String × ImgData)
  fetchCalls : Nat
deriving Repr, DecidableEq

def storeDel (k : String) (l : List (String × ImgData)) : List (String × ImgData) :=
  l.filter (fun p => p.1 != k)

/-- `os.replace(png_real, cached_png)`: overwrite the entry for `k`. -/
def storePut (k : String) (v : ImgData) (l : List (String × ImgData)) :
    List (String × ImgData) :=
  (k, v) :: storeDel k l

/-- The miss path of `obtener_imagen` (from `seed = ...` on): one provider
call; on success the result is moved into the cache and opened from there; a
billing error is re-raised; any other failure yields the placeholder. -/
def obtenerFetch (hash : String → String) (fetch : Nat → FetchOutcome)
    (prompt : String) (st : CacheSt) : ImgResult × CacheSt :=
  match fetch st.fetchCalls with
  | .ok img =>
    let st' : CacheSt := ⟨storePut (hash prompt) img st.store, st.fetchCalls + 1⟩
    if img.decodable then (.real img, st') else (.placeholder, st')
  | .billing m => (.raisedBilling m, ⟨st.store, st.fetchCalls + 1⟩)
  | .fail _ => (.placeholder, ⟨st.store, st.fetchCalls + 1⟩)

/-- `obtener_imagen(prompt, cache_dir, model)`: cache hit (with eviction of an
entry `Image.open` cannot decode), else fetch.  `hash` stands for
`hashlib.sha256(prompt.encode()).hexdigest()[:16]` — the claims below use only
that it is a fixed function of the exact prompt string. -/
def obtener_imagen (hash : String → String) (fetch : Nat → FetchOutcome)
    (prompt : String) (st : CacheSt) : ImgResult × CacheSt :=
  match st.store.lookup (hash prompt) with
  | some img =>
    if img.decodable then (.real img, st)
    else obtenerFetch hash fetch prompt ⟨storeDel (hash prompt) st.store, st.fetchCalls⟩
  | none => obtenerFetch hash fetch prompt st

/-- Repeated acquisition with the same prompt (the "process lifetime"). -/
def obtenerIter (hash : String → String) (fetch : Nat → FetchOutcome)
    (prompt : String) : Nat → CacheSt → CacheSt
  | 0, st => st
  | n + 1, st => obtenerIter hash fetch prompt n (obtener_imagen hash fetch prompt st).2

/-- One OpenAI-style HTTP response as `_post_openai_images` inspects it:
status code, the message extracted from the error JSON, and whether/what image
payload `data[0]` carries. -/
structure OaiResp where
  status : Nat
  errMsg : String
  hasImage : Bool
  img : ImgData
deriving Repr, DecidableEq

/-- Result of `_post_openai_images`: the distinct billing error, the generic
`ImageRouterError`, or image bytes. -/
inductive OaiOutcome where
  | billing (msg : String)
  | genericErr (msg : String)
  | ok (img : ImgData)
deriving Repr, DecidableEq

/-- `_post_openai_images`: `403` with `"deposit"` in the lowered error message
raises `ImageRouterBillingRequired`; any other status `≥ 400` (including
`401` and other `403`s) raises the generic `ImageRouterError`; a `2xx` with no
recognizable payload is also the generic error. -/
def post_openai_images (r : OaiResp) : OaiOutcome :=
  if r.status = 403 ∧ strContains (pyLower r.errMsg) "deposit" = true then
    .billing r.errMsg
  else if 400 ≤ r.status then .genericErr ("HTTP " ++ toString r.status)
  else if r.hasImage then .ok r.img
  else .genericErr "Respuesta sin imagen reconocible (OpenAI-style)."

/-- The OpenAI-style branch of `generate_image_via_imagerouter` makes exactly
one `_post_openai_images` call and propagates its outcome (writing the bytes
to `out_dir` on success). -/
def fetchOfOai (r : OaiResp) : FetchOutcome :=
  match post_openai_images r with
  | .billing m => .billing m
  | .genericErr m => .fail m
  | .ok i => .ok i

/-- One Hugging Face response: status code and body bytes. -/
structure HfResp where
  status : Nat
  img : ImgData
deriving Repr, DecidableEq

/-- Observable run of `_post_hf_bytes`: how many POSTs were made, the seconds
slept between them, and the returned bytes (`none` = `ImageRouterError`). -/
structure HfRun where
  calls : Nat
  delays : List Nat
  result : Option ImgData
deriving Repr, DecidableEq

/-- `_post_hf_bytes`: one POST; on status `503`/`524` sleep 2 s and POST once
more; any final status `≥ 400` raises `ImageRouterError`. -/
def post_hf_bytes (resp : Nat → HfResp) : HfRun :=
  let r0 := resp 0
  if r0.status = 503 ∨ r0.status = 524 then
    let r1 := resp 1
    if 400 ≤ r1.status then ⟨2, [2], none⟩ else ⟨2, [2], some r1.img⟩
  else if 400 ≤ r0.status then ⟨1, [], none⟩ else ⟨1, [], some r0.img⟩

/-- The `huggingface` branch of `generate_image_via_imagerouter`: a single
`_post_hf_bytes` call, no further retry loop around it. -/
def generate_image_hf (resp : Nat → HfResp) : HfRun := post_hf_bytes resp

/-!
## Batch loop

`main` iterates `generar_pdf_de_md` over every discovered `.md` file with no
`try` around the loop body.  The only failure source modelled is the one the
cited code handles explicitly: `ImageRouterBillingRequired` from image
acquisition, which `generar_pdf_de_md` converts to `SystemExit` when
`fail_on_router_error` is set and otherwise logs and degrades (placeholder /
plain text).  A processed document is described by which of its image
acquisitions would raise the billing error.
-/

structure DocSpec where
  coverBilling : Bool
  paraBilling : List Bool
deriving Repr, DecidableEq

/-- The per-paragraph loop of `generar_pdf_de_md`: a billing error either
raises `SystemExit` (strict) or sets `billing_blocked`, after which no further
image is requested.  Returns the raised message, if any. -/
def processParas (strict : Bool) : List Bool → Bool → Option String
  | [], _ => none
  | b :: bs, blocked =>
    if blocked then processParas strict bs blocked
    else if b then
      if strict then some "SystemExit" else processParas strict bs true
    else processParas strict bs blocked

/-- `generar_pdf_de_md`, failure skeleton: cover acquisition, then the body
loop.  `none` = the document is fully generated. -/
def generar_pdf_de_md (strict : Bool) (d : DocSpec) : Option String :=
  if d.coverBilling ∧ strict = true then some "SystemExit"
  else processParas strict d.paraBilling false

/-- `main`'s `for md in md_list` loop: documents processed in order, stopping
at the first uncaught exception.  Returns how many documents completed and the
exception that stopped the run, if any. -/
def main_batch (strict : Bool) : List DocSpec → Nat × Option String
  | [] => (0, none)
  | d :: ds =>
    match generar_pdf_de_md strict d with
    | none => let r := main_batch strict ds; (r.1 + 1, r.2)
    | some e => (0, some e)

/-!
## Helper lemmas on the string primitives
-/

theorem dropWhile_head?_not {p : Char → Bool} :
    ∀ {cs : List Char} {c : Char}, (cs.dropWhile p).head? = some c → p c = false := by
  intro cs
  induction cs with
  | nil => intro c h; simp [List.dropWhile] at h
  | cons a t ih =>
    intro c h
    rw [List.dropWhile_cons] at h
    by_cases hp : p a = true
    · exact ih (by simpa [hp] using h)
    · simp [hp] at h
      simp [← h, Bool.not_eq_true] at hp ⊢
      exact hp

theorem pyStripL_eq_nil_iff (cs : List Char) :
    pyStripL cs = [] ↔ ∀ c ∈ cs, pySpace c = true := by
  unfold pyStripL
  rw [List.reverse_eq_nil_iff, List.dropWhile_eq_nil_iff]
  constructor
  · intro h c hc
    rcases List.mem_append.mp
        (by rw [List.takeWhile_append_dropWhile (p := pySpace)]; exact hc) with h1 | h1
    · exact List.mem_takeWhile_imp h1
    · exact h c (List.mem_reverse.mpr h1)
  · intro h c hc
    exact h c ((List.dropWhile_suffix pySpace).subset (List.mem_reverse.mp hc))

theorem pyStripL_exists_nonspace {cs : List Char} (h : pyStripL cs ≠ []) :
    ∃ c ∈ pyStripL cs, pySpace c = false := by
  have hvne : List.dropWhile pySpace (List.dropWhile pySpace cs).reverse ≠ [] := by
    intro hnil
    apply h
    show (List.dropWhile pySpace (List.dropWhile pySpace cs).reverse).reverse = []
    rw [hnil]; rfl
  rcases List.exists_cons_of_ne_nil hvne with ⟨d, u, hdu⟩
  have hh : (List.dropWhile pySpace ((List.dropWhile pySpace cs).reverse)).head? = some d := by
    rw [hdu]
    rfl
  refine ⟨d, ?_, dropWhile_head?_not hh⟩
  show d ∈ (List.dropWhile pySpace (List.dropWhile pySpace cs).reverse).reverse
  rw [hdu]
  simp

theorem pyStripL_ne_nil_of_exists {cs : List Char}
    (h : ∃ c ∈ cs, pySpace c = false) : pyStripL cs ≠ [] := by
  intro hnil
  rcases h with ⟨c, hc, hcs⟩
  rw [pyStripL_eq_nil_iff] at hnil
  rw [hnil c hc] at hcs
  exact absurd hcs (by decide)

theorem mem_joinNl {ls : List (List Char)} {x : List Char} {c : Char}
    (hx : x ∈ ls) (hc : c ∈ x) : c ∈ joinNl ls := by
  induction ls with
  | nil => cases hx
  | cons a t ih =>
    cases t with
    | nil => simp at hx; rw [joinNl, ← hx] at *; exact hc
    | cons b u =>
      rw [joinNl]
      rcases List.mem_cons.mp hx with h | h
      · exact List.mem_append.mpr (Or.inl (h ▸ hc))
      · exact List.mem_append.mpr (Or.inr (List.mem_cons_of_mem _ (ih h)))

theorem pyStripL_subset (cs : List Char) : pyStripL cs ⊆ cs := by
  intro c hc
  unfold pyStripL at hc
  have h1 := (List.dropWhile_suffix pySpace).subset (List.mem_reverse.mp hc)
  exact (List.dropWhile_suffix pySpace).subset (List.mem_reverse.mp h1)

theorem exists_nonspace_of_strip_ne_nil {cs : List Char} (h : pyStripL cs ≠ []) :
    ∃ c ∈ cs, pySpace c = false := by
  rcases pyStripL_exists_nonspace h with ⟨c, hc, hns⟩
  exact ⟨c, pyStripL_subset cs hc, hns⟩

theorem pyStrip_mk_ne_iff (l : List Char) : pyStrip ⟨l⟩ ≠ "" ↔ pyStripL l ≠ [] := by
  unfold pyStrip
  constructor
  · intro h hnil
    apply h
    rw [String.ext_iff]
    exact hnil
  · intro h hmk
    rw [String.ext_iff] at hmk
    exact h hmk

theorem hKind_ne_p (lvl : Nat) : ("h" ++ toString lvl) ≠ "p" := by
  intro h
  have h2 : ("h" ++ toString lvl).data = "p".data := by rw [h]
  rw [String.data_append] at h2
  cases hd : (toString lvl).data with
  | nil => rw [hd] at h2; simp at h2
  | cons a t => rw [hd] at h2; simp at h2

theorem flush_para_current (st : ParseState) : (flush_para st).current_para = [] := by
  cases hc : st.current_para with
  | nil => simp [flush_para, hc]
  | cons a t => simp [flush_para, hc]

theorem flush_para_blocks_inv (st : ParseState)
    (hb : ∀ b ∈ st.blocks, b.type = "p" → pyStrip b.text ≠ "")
    (hc : ∀ l ∈ st.current_para, pyStripL l.toList ≠ []) :
    ∀ b ∈ (flush_para st).blocks, b.type = "p" → pyStrip b.text ≠ "" := by
  cases hcur : st.current_para with
  | nil =>
    intro b hbmem
    have hsame : (flush_para st).blocks = st.blocks := by simp [flush_para, hcur]
    rw [hsame] at hbmem
    exact hb b hbmem
  | cons l rest =>
    intro b hbmem htype
    have hblocks : (flush_para st).blocks
        = st.blocks ++ [⟨"p", ⟨pyStripL (joinNl ((l :: rest).map String.toList))⟩⟩] := by
      simp [flush_para, hcur]
    rw [hblocks] at hbmem
    rcases List.mem_append.mp hbmem with hold | hnew
    · exact hb b hold htype
    · have hb' : b = ⟨"p", ⟨pyStripL (joinNl ((l :: rest).map String.toList))⟩⟩ := by
        simpa using hnew
      rw [hb']
      rw [pyStrip_mk_ne_iff]
      have hl : pyStripL l.toList ≠ [] := hc l (by rw [hcur]; exact List.mem_cons_self l rest)
      rcases exists_nonspace_of_strip_ne_nil hl with ⟨c, hcmem, hcns⟩
      have hjoin : pyStripL (joinNl ((l :: rest).map String.toList)) ≠ [] := by
        apply pyStripL_ne_nil_of_exists
        exact ⟨c, mem_joinNl (List.mem_map_of_mem String.toList
          (List.mem_cons_self l rest)) hcmem, hcns⟩
      exact pyStripL_ne_nil_of_exists (pyStripL_exists_nonspace hjoin)

theorem parseLine_inv (st : ParseState) (line : String)
    (hb : ∀ b ∈ st.blocks, b.type = "p" → pyStrip b.text ≠ "")
    (hc : ∀ l ∈ st.current_para, pyStripL l.toList ≠ []) :
    (∀ b ∈ (parseLine st line).blocks, b.type = "p" → pyStrip b.text ≠ "")
    ∧ ∀ l ∈ (parseLine st line).current_para, pyStripL l.toList ≠ [] := by
  unfold parseLine
  cases hm : headingMatch line.toList with
  | some pt =>
    rcases pt with ⟨lvl, t⟩
    dsimp only
    constructor
    · intro b hbmem htype
      rcases List.mem_append.mp hbmem with hold | hnew
      · exact flush_para_blocks_inv st hb hc b hold htype
      · have hbeq : b = ⟨"h" ++ toString lvl, t⟩ := by simpa using hnew
        rw [hbeq] at htype
        exact absurd htype (hKind_ne_p lvl)
    · intro l hl
      rw [flush_para_current] at hl
      cases hl
  | none =>
    dsimp only
    by_cases hact : st.in_actividades = true
    · simp only [hact, if_true]
      exact ⟨hb, hc⟩
    · simp only [hact, if_false, Bool.false_eq_true]
      by_cases hblank : pyStrip line = ""
      · simp only [hblank, if_true]
        by_cases hlast : st.last_line_blank = true
        · simp only [hlast]
          constructor
          · simpa using hb
          · simpa using hc
        · simp only [hlast]
          constructor
          · intro b hbmem htype
            have : b ∈ (flush_para st).blocks := by
              simp only [Bool.false_eq_true] at hbmem
              simpa [hlast] using hbmem
            exact flush_para_blocks_inv st hb hc b this htype
          · intro l hl
            have : l ∈ (flush_para st).current_para := by
              simp only [Bool.false_eq_true] at hl
              simpa [hlast] using hl
            rw [flush_para_current] at this
            cases this
      · simp only [hblank, if_false]
        constructor
        · exact hb
        · intro l hl
          rcases List.mem_append.mp hl with hold | hnew
          · exact hc l hold
          · have hleq : l = line := by simpa using hnew
            rw [hleq]
            rw [← pyStrip_mk_ne_iff]
            exact hblank

theorem parse_foldl_inv (ls : List String) :
    ∀ st : ParseState,
      (∀ b ∈ st.blocks, b.type = "p" → pyStrip b.text ≠ "") →
      (∀ l ∈ st.current_para, pyStripL l.toList ≠ []) →
      (∀ b ∈ (ls.foldl parseLine st).blocks, b.type = "p" → pyStrip b.text ≠ "")
      ∧ ∀ l ∈ (ls.foldl parseLine st).current_para, pyStripL l.toList ≠ [] := by
  induction ls with
  | nil => intro st hb hc; exact ⟨hb, hc⟩
  | cons x xs ih =>
    intro st hb hc
    have h := parseLine_inv st x hb hc
    exact ih (parseLine st x) h.1 h.2

/-- C10: every paragraph block produced by `parse_markdown` has non-empty text
after stripping whitespace — runs of blank or whitespace-only lines never
yield a paragraph block, because only non-blank lines are buffered and the
buffer is flushed only when non-empty. -/
theorem C10_paragraphs_nonblank (text : String) (b : Block)
    (hmem : b ∈ (parse_markdown text).1) (hp : b.type = "p") :
    pyStrip b.text ≠ "" := by
  have h := parse_foldl_inv (pySplitlines text) ParseState.init
    (by intro b hb; cases hb) (by intro l hl; cases hl)
  have hmem' : b ∈ (flush_para ((pySplitlines text).foldl parseLine ParseState.init)).blocks := by
    simpa [parse_markdown] using hmem
  exact flush_para_blocks_inv _ h.1 h.2 b hmem' hp

/-- C10 witness: a concrete run of the theorem on `"hola"`. -/
theorem C10_paragraphs_nonblank_witness :
    (⟨"p", "hola"⟩ : Block) ∈ (parse_markdown "hola").1
    ∧ (⟨"p", "hola"⟩ : Block).type = "p"
    ∧ pyStrip (Block.text ⟨"p", "hola"⟩) ≠ "" :=
  ⟨by decide, rfl, C10_paragraphs_nonblank "hola" ⟨"p", "hola"⟩ (by decide) rfl⟩

theorem flush_para_in_actividades (st : ParseState) :
    (flush_para st).in_actividades = st.in_actividades := by
  cases hc : st.current_para with
  | nil => simp [flush_para, hc]
  | cons a t => simp [flush_para, hc]

theorem flush_para_actividades (st : ParseState) :
    (flush_para st).actividades = st.actividades := by
  cases hc : st.current_para with
  | nil => simp [flush_para, hc]
  | cons a t => simp [flush_para, hc]

theorem flush_para_of_nil (st : ParseState) (h : st.current_para = []) :
    flush_para st = st := by
  simp [flush_para, h]

/-- C1 counterexample: on `"## Actividades\nfoo\n## Otro\nbar"` the marker
heading is block 0, yet the later heading `"Otro"` and the paragraph `"bar"`
both appear in the MAIN block list (appendix mode also ended at `"## Otro"`):
only the line `"foo"` was routed to the appendix.  This contradicts "every
subsequent block … appears in the appendix block sequence and none in the
main block sequence; this appendix mode, once entered, never ends". -/
theorem C1_counterexample :
    (parse_markdown "## Actividades\nfoo\n## Otro\nbar").1
      = [⟨"h2", "Actividades"⟩, ⟨"h2", "Otro"⟩, ⟨"p", "bar"⟩]
    ∧ (parse_markdown "## Actividades\nfoo\n## Otro\nbar").2.1 = ["foo"] := by
  decide

/-- C1 (amended): a level-2 heading whose normalized text equals
`"actividades"` turns appendix mode on, and any other level-2 heading turns
it off (other heading levels leave it unchanged); every heading line is
appended to the main block list regardless of mode; while the mode is on,
non-heading lines are stripped and routed to the `actividades` string list
(blank lines dropped), leaving the main block list untouched. -/
theorem C1_appendix_routing :
    (∀ (st : ParseState) (line : String) (lvl : Nat) (t : String),
      headingMatch line.toList = some (lvl, t) →
      ((parseLine st line).in_actividades = true ↔
        (lvl = 2 ∧ pyLower t = "actividades") ∨ (lvl ≠ 2 ∧ st.in_actividades = true)))
    ∧ (∀ (st : ParseState) (line : String) (lvl : Nat) (t : String),
        headingMatch line.toList = some (lvl, t) → st.current_para = [] →
        (parseLine st line).blocks = st.blocks ++ [⟨"h" ++ toString lvl, t⟩])
    ∧ (∀ (ls : List String) (st : ParseState), st.in_actividades = true →
        (∀ l ∈ ls, headingMatch l.toList = none) →
        (ls.foldl parseLine st).blocks = st.blocks
        ∧ (ls.foldl parseLine st).actividades
            = st.actividades ++ (ls.filter (fun l => pyStrip l != "")).map pyStrip
        ∧ (ls.foldl parseLine st).in_actividades = true) := by
  refine ⟨?_, ?_, ?_⟩
  · intro st line lvl t hm
    unfold parseLine
    rw [hm]
    dsimp only
    by_cases h2 : lvl = 2
    · simp [h2, decide_eq_true_eq]
    · simp [h2, flush_para_in_actividades]
  · intro st line lvl t hm hnil
    unfold parseLine
    rw [hm]
    dsimp only
    rw [flush_para_of_nil st hnil]
  · intro ls
    induction ls with
    | nil => intro st hact _; exact ⟨rfl, by simp, hact⟩
    | cons l rest ih =>
      intro st hact hnone
      have hml : headingMatch l.toList = none := hnone l (List.mem_cons_self l rest)
      have hstep : List.foldl parseLine st (l :: rest)
          = List.foldl parseLine (parseLine st l) rest := rfl
      have hpl : parseLine st l
          = { st with
              actividades :=
                if pyStrip l ≠ "" then st.actividades ++ [pyStrip l] else st.actividades,
              last_line_blank := (pyStrip l = "") } := by
        unfold parseLine
        rw [hml]
        dsimp only
        rw [if_pos hact]
      have hrest := ih (parseLine st l) (by rw [hpl]; exact hact)
        (fun x hx => hnone x (List.mem_cons_of_mem l hx))
      rw [hstep]
      refine ⟨by rw [hrest.1, hpl], ?_, hrest.2.2⟩
      rw [hrest.2.1, hpl]
      by_cases hs : pyStrip l = ""
      · simp [hs]
      · simp [hs]

/-- C1 amended witness: a non-marker level-2 heading ends appendix mode, and
two content lines (with a blank between) land stripped in `actividades`. -/
theorem C1_appendix_routing_witness :
    (parseLine { ParseState.init with in_actividades := true } "## Otro").in_actividades = false
    ∧ (["foo", "", " bar "].foldl parseLine
        { ParseState.init with in_actividades := true }).actividades = ["foo", "bar"] := by
  constructor
  · have h := C1_appendix_routing.1 { ParseState.init with in_actividades := true }
      "## Otro" 2 "Otro" (by decide)
    refine Bool.eq_false_iff.mpr (fun hT => ?_)
    have := h.mp hT
    revert this
    decide
  · have h := (C1_appendix_routing.2.2 ["foo", "", " bar "]
      { ParseState.init with in_actividades := true } rfl (by decide)).2.1
    rw [h]
    decide

theorem headingMatch_bounds {cs : List Char} {lvl : Nat} {t : String}
    (h : headingMatch cs = some (lvl, t)) : 1 ≤ lvl ∧ lvl ≤ 6 := by
  simp only [headingMatch] at h
  cases hafter : (cs.dropWhile pySpace).dropWhile (fun c => c = '#') with
  | nil => rw [hafter] at h; cases h
  | cons c rest =>
    rw [hafter] at h
    split at h
    · split at h
      · rename_i hif
        injection h with h1
        injection h1 with h2 h3
        exact ⟨h2 ▸ hif.1, h2 ▸ hif.2.1⟩
      · cases h
    · cases h

theorem flush_para_kinds_inv (st : ParseState)
    (hb : ∀ b ∈ st.blocks, b.type ∈ (["h1", "h2", "h3", "h4", "h5", "h6", "p"] : List String)) :
    ∀ b ∈ (flush_para st).blocks,
      b.type ∈ (["h1", "h2", "h3", "h4", "h5", "h6", "p"] : List String) := by
  cases hcur : st.current_para with
  | nil =>
    intro b hbmem
    have hsame : (flush_para st).blocks = st.blocks := by simp [flush_para, hcur]
    rw [hsame] at hbmem
    exact hb b hbmem
  | cons l rest =>
    intro b hbmem
    have hblocks : (flush_para st).blocks
        = st.blocks ++ [⟨"p", ⟨pyStripL (joinNl ((l :: rest).map String.toList))⟩⟩] := by
      simp [flush_para, hcur]
    rw [hblocks] at hbmem
    rcases List.mem_append.mp hbmem with hold | hnew
    · exact hb b hold
    · have hbeq : b = ⟨"p", ⟨pyStripL (joinNl ((l :: rest).map String.toList))⟩⟩ := by
        simpa using hnew
      rw [hbeq]
      dsimp only
      decide

theorem parseLine_kinds_inv (st : ParseState) (line : String)
    (hb : ∀ b ∈ st.blocks, b.type ∈ (["h1", "h2", "h3", "h4", "h5", "h6", "p"] : List String)) :
    ∀ b ∈ (parseLine st line).blocks,
      b.type ∈ (["h1", "h2", "h3", "h4", "h5", "h6", "p"] : List String) := by
  unfold parseLine
  cases hm : headingMatch line.toList with
  | some pt =>
    rcases pt with ⟨lvl, t⟩
    dsimp only
    intro b hbmem
    rcases List.mem_append.mp hbmem with hold | hnew
    · exact flush_para_kinds_inv st hb b hold
    · have hbeq : b = ⟨"h" ++ toString lvl, t⟩ := by simpa using hnew
      rw [hbeq]
      obtain ⟨h1, h6⟩ := headingMatch_bounds hm
      dsimp only
      interval_cases lvl <;> decide
  | none =>
    dsimp only
    by_cases hact : st.in_actividades = true
    · simp only [hact, if_true]
      exact hb
    · simp only [hact, if_false, Bool.false_eq_true]
      by_cases hblank : pyStrip line = ""
      · simp only [hblank, if_true]
        by_cases hlast : st.last_line_blank = true
        · simp only [hlast]
          simpa using hb
        · simp only [hlast]
          intro b hbmem
          have hmem' : b ∈ (flush_para st).blocks := by
            simp only [Bool.false_eq_true] at hbmem
            simpa [hlast] using hbmem
          exact flush_para_kinds_inv st hb b hmem'
      · simp only [hblank, if_false]
        exact hb

/-- Heading/paragraph kinds are the only block kinds `parse_markdown` emits. -/
theorem parse_markdown_kinds (text : String) :
    ∀ b ∈ (parse_markdown text).1,
      b.type ∈ (["h1", "h2", "h3", "h4", "h5", "h6", "p"] : List String) := by
  have main : ∀ (ls : List String) (st : ParseState),
      (∀ b ∈ st.blocks, b.type ∈ (["h1", "h2", "h3", "h4", "h5", "h6", "p"] : List String)) →
      ∀ b ∈ (ls.foldl parseLine st).blocks,
        b.type ∈ (["h1", "h2", "h3", "h4", "h5", "h6", "p"] : List String) := by
    intro ls
    induction ls with
    | nil => intro st hb; exact hb
    | cons x xs ih => intro st hb; exact ih (parseLine st x) (parseLine_kinds_inv st x hb)
  intro b hmem
  have hmem' : b ∈ (flush_para ((pySplitlines text).foldl parseLine ParseState.init)).blocks := by
    simpa [parse_markdown] using hmem
  exact flush_para_kinds_inv _
    (main (pySplitlines text) ParseState.init (by intro b hb; cases hb)) b hmem'

theorem paraScan_mem {blocks : List Block} :
    ∀ (n : Nat) (h0 : Option Nat) (i : Nat) (text : String) (hl : Option Nat),
      (i, text, hl) ∈ paraScan blocks n h0 →
      n ≤ i ∧ blocks.get? (i - n) = some ⟨"p", text⟩ := by
  induction blocks with
  | nil => intro n h0 i text hl h; cases h
  | cons b bs ih =>
    intro n h0 i text hl hmem
    unfold paraScan at hmem
    cases hk : kindHeadingLevel b.type with
    | some l =>
      rw [hk] at hmem
      obtain ⟨hle, hget⟩ := ih _ _ _ _ _ hmem
      refine ⟨Nat.le_of_succ_le hle, ?_⟩
      have : i - n = (i - (n + 1)) + 1 := by omega
      rw [this]
      simpa using hget
    | none =>
      rw [hk] at hmem
      by_cases hp : b.type = "p"
      · simp only [hp, if_true] at hmem
        rcases List.mem_cons.mp hmem with hhead | htail
        · injection hhead with h1 h23
          injection h23 with h2 h3
          subst h1 h2
          refine ⟨Nat.le_refl _, ?_⟩
          simp only [Nat.sub_self]
          have : b = ⟨"p", b.text⟩ := by
            cases b
            simp_all
          rw [← this]
          rfl
        · obtain ⟨hle, hget⟩ := ih _ _ _ _ _ htail
          refine ⟨Nat.le_of_succ_le hle, ?_⟩
          have : i - n = (i - (n + 1)) + 1 := by omega
          rw [this]
          simpa using hget
      · simp only [hp, if_false] at hmem
        obtain ⟨hle, hget⟩ := ih _ _ _ _ _ hmem
        refine ⟨Nat.le_of_succ_le hle, ?_⟩
        have : i - n = (i - (n + 1)) + 1 := by omega
        rw [this]
        simpa using hget

theorem mem_insertDesc {x y : Nat × ℤ} {l : List (Nat × ℤ)} :
    y ∈ insertDesc x l ↔ y = x ∨ y ∈ l := by
  induction l with
  | nil => simp [insertDesc]
  | cons a t ih =>
    unfold insertDesc
    by_cases h : x.2 ≥ a.2
    · simp [h]
    · simp only [h, if_false]
      rw [List.mem_cons, ih, List.mem_cons]
      tauto

theorem mem_isortDesc {y : Nat × ℤ} {l : List (Nat × ℤ)} :
    y ∈ isortDesc l ↔ y ∈ l := by
  induction l with
  | nil => simp [isortDesc]
  | cons a t ih => rw [isortDesc, mem_insertDesc, ih, List.mem_cons]

theorem mem_insertAsc {x y : Nat} {l : List Nat} :
    y ∈ insertAsc x l ↔ y = x ∨ y ∈ l := by
  induction l with
  | nil => simp [insertAsc]
  | cons a t ih =>
    unfold insertAsc
    by_cases h : x ≤ a
    · simp [h]
    · simp only [h, if_false]
      rw [List.mem_cons, ih, List.mem_cons]
      tauto

theorem mem_isortAsc {y : Nat} {l : List Nat} : y ∈ isortAsc l ↔ y ∈ l := by
  induction l with
  | nil => simp [isortAsc]
  | cons a t ih => rw [isortAsc, mem_insertAsc, ih, List.mem_cons]

/-- The selector only ever returns indices of `'p'` blocks, chosen by the
automatic scoring path. -/
theorem select_only_paragraphs (blocks : List Block) (mx i : Nat)
    (h : i ∈ select_key_paragraphs blocks mx) :
    ∃ b, blocks.get? i = some b ∧ b.type = "p" := by
  unfold select_key_paragraphs at h
  rw [mem_isortAsc] at h
  rcases List.mem_map.mp h with ⟨q, hq, hi⟩
  have hq2 : q ∈ isortDesc (((paraScan blocks 0 none).map
      (fun p => scorePara p.2.1 p.2.2)).enum) := List.take_subset _ _ hq
  rw [mem_isortDesc] at hq2
  have hlt : q.1 < (paraScan blocks 0 none).length := by
    have := List.fst_lt_add_of_mem_enumFrom hq2
    simpa using this
  have hlen : ((paraScan blocks 0 none).map (fun p => p.1)).length
      = (paraScan blocks 0 none).length := by simp
  have hgetd : ((paraScan blocks 0 none).map (fun p => p.1)).getD q.1 0
      = ((paraScan blocks 0 none).get ⟨q.1, hlt⟩).1 := by
    rw [List.getD_eq_getElem _ _ (by rw [hlen]; exact hlt)]
    simp
  rw [hgetd] at hi
  set trip := (paraScan blocks 0 none).get ⟨q.1, hlt⟩ with htrip
  have htmem : trip ∈ paraScan blocks 0 none := by
    rw [htrip]
    exact List.get_mem _ _ _
  have h3 : (trip.1, trip.2.1, trip.2.2) ∈ paraScan blocks 0 none := by
    simpa using htmem
  obtain ⟨-, hget⟩ := paraScan_mem _ _ _ _ _ h3
  rw [Nat.sub_zero] at hget
  exact ⟨⟨"p", trip.2.1⟩, hi ▸ hget, rfl⟩

/-- C2 counterexample: on `"![prompt] a red triangle\n\nSome plain words."`
the directive line comes out as an ordinary `'p'` block (no ImageDirective
kind exists), and the selector auto-scores BOTH paragraphs, returning
`{0, 1}` — not exactly the directive indices `{0}`, and scoring is not
disabled. -/
theorem C2_counterexample :
    (parse_markdown "![prompt] a red triangle\n\nSome plain words.").1
      = [⟨"p", "![prompt] a red triangle"⟩, ⟨"p", "Some plain words."⟩]
    ∧ specImageDirectiveLine "![prompt] a red triangle" = true
    ∧ specImageDirectiveLine "Some plain words." = false
    ∧ select_key_paragraphs
        (parse_markdown "![prompt] a red triangle\n\nSome plain words.").1 4 = [0, 1] := by
  decide

/-- C2 (amended): the parser has no ImageDirective block kind at all — every
parsed block is a heading (`h1`..`h6`) or a paragraph (`p`), a
`![prompt] <text>` line being ordinary paragraph text — and the selector
always runs the automatic scoring path, returning only `'p'`-block indices;
there is no manual mode. -/
theorem C2_no_manual_mode :
    (∀ (text : String), ∀ b ∈ (parse_markdown text).1,
        b.type ∈ (["h1", "h2", "h3", "h4", "h5", "h6", "p"] : List String))
    ∧ (∀ (blocks : List Block) (mx i : Nat), i ∈ select_key_paragraphs blocks mx →
        ∃ b, blocks.get? i = some b ∧ b.type = "p") :=
  ⟨parse_markdown_kinds, select_only_paragraphs⟩

/-- C2 amended witness: concrete instances of both conjuncts. -/
theorem C2_no_manual_mode_witness :
    (⟨"p", "hola"⟩ : Block).type ∈ (["h1", "h2", "h3", "h4", "h5", "h6", "p"] : List String)
    ∧ ∃ b, [(⟨"p", "unas palabras"⟩ : Block)].get? 0 = some b ∧ b.type = "p" :=
  ⟨C2_no_manual_mode.1 "hola" ⟨"p", "hola"⟩ (by decide),
    C2_no_manual_mode.2 [⟨"p", "unas palabras"⟩] 4 0 (by decide)⟩

theorem getLast?_cons_or {α : Type} (a : α) (l : List α) :
    (a :: l).getLast? = Option.or l.getLast? (some a) := by
  induction l with
  | nil => rfl
  | cons b t _ =>
    rw [List.getLast?_cons_cons]
    cases hbt : (b :: t).getLast? with
    | none => exact absurd (List.getLast?_eq_none_iff.mp hbt) (by simp)
    | some v => rfl

theorem paraScan_lastH {blocks : List Block} :
    ∀ (n : Nat) (h0 : Option Nat) (i : Nat) (text : String) (hl : Option Nat),
      (i, text, hl) ∈ paraScan blocks n h0 →
      hl = Option.or (((blocks.take (i - n)).filterMap
              (fun b => kindHeadingLevel b.type)).getLast?) h0 := by
  induction blocks with
  | nil => intro n h0 i text hl h; cases h
  | cons b bs ih =>
    intro n h0 i text hl hmem
    unfold paraScan at hmem
    cases hk : kindHeadingLevel b.type with
    | some l =>
      rw [hk] at hmem
      have hge := (paraScan_mem _ _ _ _ _ hmem).1
      have hres := ih _ _ _ _ _ hmem
      have htake : (b :: bs).take (i - n) = b :: bs.take (i - n - 1) := by
        have hin : i - n = (i - n - 1) + 1 := by omega
        rw [hin]
        rfl
      rw [htake, List.filterMap_cons, hk, getLast?_cons_or, Option.or_assoc]
      have hsame : i - n - 1 = i - (n + 1) := by omega
      rw [hsame]
      have hor : Option.or (some l) h0 = some l := rfl
      rw [hor]
      exact hres
    | none =>
      rw [hk] at hmem
      have hbranch : ∀ (hm2 : (i, text, hl) ∈ paraScan bs (n + 1) h0),
          hl = Option.or (((b :: bs).take (i - n)).filterMap
              (fun b => kindHeadingLevel b.type)).getLast? h0 := by
        intro hm2
        have hge := (paraScan_mem _ _ _ _ _ hm2).1
        have hres := ih _ _ _ _ _ hm2
        have htake : (b :: bs).take (i - n) = b :: bs.take (i - n - 1) := by
          have hin : i - n = (i - n - 1) + 1 := by omega
          rw [hin]
          rfl
        rw [htake, List.filterMap_cons, hk]
        have hsame : i - n - 1 = i - (n + 1) := by omega
        rw [hsame]
        exact hres
      by_cases hp : b.type = "p"
      · simp only [hp, if_true] at hmem
        rcases List.mem_cons.mp hmem with hhead | htail
        · injection hhead with h1 h23
          injection h23 with h2 h3
          subst h1 h3
          simp
        · exact hbranch htail
      · simp only [hp, if_false] at hmem
        exact hbranch hmem

/-- C9 counterexample: one `h2` heading followed by a 100-char paragraph and a
200-char paragraph.  The code gives the `+0.6` bonus to BOTH (the second is
not immediately after the heading) and, with `max_images = 1`, selects the
second; under the spec's immediate-successor-only rule the first would be
selected. -/
theorem C9_counterexample :
    select_key_paragraphs
        [⟨"h2", "Tema"⟩, ⟨"p", (⟨List.replicate 100 'x'⟩ : String)⟩,
          ⟨"p", (⟨List.replicate 200 'y'⟩ : String)⟩] 1 = [2]
    ∧ specSelectImmediateBonus
        [⟨"h2", "Tema"⟩, ⟨"p", (⟨List.replicate 100 'x'⟩ : String)⟩,
          ⟨"p", (⟨List.replicate 200 'y'⟩ : String)⟩] 1 = [1] := by
  decide

/-- C9 (amended): the `+0.6` bonus (`1200` in the `1/2000`-unit scale) is
applied to every paragraph whose most recent preceding heading has level 2 or
3 — not only to the paragraph directly after such a heading: the heading level
recorded for a paragraph entry is the level of the last heading block
anywhere before it. -/
theorem C9_bonus_last_heading :
    (∀ (blocks : List Block) (i : Nat) (text : String) (hl : Option Nat),
      (i, text, hl) ∈ paraScan blocks 0 none →
      hl = ((blocks.take i).filterMap (fun b => kindHeadingLevel b.type)).getLast?)
    ∧ ∀ (text : String) (hl : Option Nat), (hl = some 2 ∨ hl = some 3) →
        scorePara text hl = scorePara text none + 1200 := by
  constructor
  · intro blocks i text hl hmem
    have h := paraScan_lastH 0 none i text hl hmem
    rw [Nat.sub_zero] at h
    rw [h, Option.or_none]
  · intro text hl h
    rcases h with h | h <;> subst h <;> simp [scorePara] <;> ring

/-- C9 amended witness: the second paragraph after an `h3` heading records
heading level 3 and receives the bonus. -/
theorem C9_bonus_last_heading_witness :
    some 3 = ((([⟨"h3", "T"⟩, ⟨"p", "a"⟩, ⟨"p", "b"⟩] : List Block).take 2).filterMap
        (fun b => kindHeadingLevel b.type)).getLast?
    ∧ scorePara "b" (some 3) = scorePara "b" none + 1200 :=
  ⟨C9_bonus_last_heading.1 [⟨"h3", "T"⟩, ⟨"p", "a"⟩, ⟨"p", "b"⟩] 2 "b" (some 3) (by decide),
    C9_bonus_last_heading.2 "b" (some 3) (Or.inr rfl)⟩

/-- C6 counterexample: cursor at 100 mm, a 70 mm image (1024×768 px) and 30
lines of 6 mm text.  `100 + max(180, 52.5) = 280 ≤ 281`, so no page break is
taken — yet after placement the cursor is `280 + 4 = 284 > 281`: the claimed
`cursor.y ≤ pageBottomLimit` after placement is false. -/
theorem C6_counterexample :
    (flow_paragraph_with_image 100 70 6 6 30 1024 768).brokePage = false
    ∧ pageBottomLimit < (flow_paragraph_with_image 100 70 6 6 30 1024 768).yFinal := by
  constructor <;>
    norm_num [flow_paragraph_with_image, pageBottomLimit, usableW, pageW, pageH,
      lMargin, rMargin, tMargin, bMargin, max_def]

/-- C6 (amended): a page break is emitted exactly when
`cursor.y + max(imageHeight, textHeight)` would pass `pageBottomLimit`, and it
happens before anything is placed (never after); immediately after placement
the cursor sits at the placed content's bottom edge plus the fixed 4 mm gap —
so it is bounded by `pageBottomLimit + 4`, not by `pageBottomLimit`, whenever
the pair fits a fresh page (`neededH ≤ pageBottomLimit - tMargin`). -/
theorem C6_layout_pagination (y img_w gutter line_h : ℚ) (nLines iw ih : ℕ) :
    ((flow_paragraph_with_image y img_w gutter line_h nLines iw ih).brokePage = true
      ↔ pageBottomLimit
          < y + (flow_paragraph_with_image y img_w gutter line_h nLines iw ih).neededH)
    ∧ (flow_paragraph_with_image y img_w gutter line_h nLines iw ih).yFinal
        = (flow_paragraph_with_image y img_w gutter line_h nLines iw ih).yStart
          + (flow_paragraph_with_image y img_w gutter line_h nLines iw ih).neededH + 4
    ∧ ((flow_paragraph_with_image y img_w gutter line_h nLines iw ih).neededH
          ≤ pageBottomLimit - tMargin →
        (flow_paragraph_with_image y img_w gutter line_h nLines iw ih).yFinal
          ≤ pageBottomLimit + 4) := by
  unfold flow_paragraph_with_image
  dsimp only
  refine ⟨by simp [decide_eq_true_eq], ?_, ?_⟩
  · simp only [max_add_add_left, max_comm ((nLines : ℚ) * line_h)]
  · intro hfit
    simp only [max_add_add_left, max_comm ((nLines : ℚ) * line_h)] at hfit ⊢
    by_cases hc : pageBottomLimit
        < y + max (if 0 < if usableW - img_w - gutter < 48 then 0 else img_w then
            (if iw = 0 then (if usableW - img_w - gutter < 48 then 0 else img_w)
              else (if usableW - img_w - gutter < 48 then 0 else img_w) * (ih : ℚ) / (iw : ℚ))
          else 0) ((nLines : ℚ) * line_h)
    · rw [if_pos hc]
      have ht : tMargin = (18 : ℚ) := rfl
      rw [ht] at hfit ⊢
      linarith
    · rw [if_neg hc]
      push_neg at hc
      linarith

/-- C6 amended witness: a 70 mm image with one 6 mm text line at cursor 10 mm
fits the page; the pagination facts hold there concretely. -/
theorem C6_layout_pagination_witness :
    ((flow_paragraph_with_image 10 70 6 6 1 1024 768).brokePage = true
      ↔ pageBottomLimit < 10 + (flow_paragraph_with_image 10 70 6 6 1 1024 768).neededH)
    ∧ (flow_paragraph_with_image 10 70 6 6 1 1024 768).neededH ≤ pageBottomLimit - tMargin
    ∧ (flow_paragraph_with_image 10 70 6 6 1 1024 768).yFinal ≤ pageBottomLimit + 4 := by
  have hfit : (flow_paragraph_with_image 10 70 6 6 1 1024 768).neededH
      ≤ pageBottomLimit - tMargin := by
    norm_num [flow_paragraph_with_image, pageBottomLimit, tMargin, pageH, bMargin, usableW,
      pageW, lMargin, rMargin, max_def]
  exact ⟨(C6_layout_pagination 10 70 6 6 1 1024 768).1, hfit,
    (C6_layout_pagination 10 70 6 6 1 1024 768).2.2 hfit⟩

/-- C8: the text column is never narrower than the 48 mm minimum, and an image
width of at least 90 % of the usable width (`156.6 mm` of `174 mm`) always
lands in the degenerate full-width path: no image column, text at the full
usable width. -/
theorem C8_narrow_fallback (y img_w gutter line_h : ℚ) (nLines iw ih : ℕ) :
    48 ≤ (flow_paragraph_with_image y img_w gutter line_h nLines iw ih).textW
    ∧ (0 ≤ gutter → (9 / 10) * usableW ≤ img_w →
        (flow_paragraph_with_image y img_w gutter line_h nLines iw ih).imgW = 0
        ∧ (flow_paragraph_with_image y img_w gutter line_h nLines iw ih).textW = usableW) := by
  unfold flow_paragraph_with_image
  dsimp only
  constructor
  · by_cases hf : usableW - img_w - gutter < 48
    · rw [if_pos hf]
      norm_num [usableW, pageW, lMargin, rMargin]
    · rw [if_neg hf]
      push_neg at hf
      exact hf
  · intro hg hi
    have hu : usableW = (174 : ℚ) := by norm_num [usableW, pageW, lMargin, rMargin]
    have hf : usableW - img_w - gutter < 48 := by
      rw [hu] at hi ⊢
      linarith
    rw [if_pos hf, if_pos hf]
    exact ⟨rfl, rfl⟩

/-- C8 witness: a 160 mm image request (≥ 156.6 mm) with the default 6 mm
gutter degrades to full-width text with no image. -/
theorem C8_narrow_fallback_witness :
    (0 : ℚ) ≤ 6 ∧ (9 / 10) * usableW ≤ (160 : ℚ)
    ∧ (flow_paragraph_with_image 50 160 6 6 3 1024 768).imgW = 0
    ∧ (flow_paragraph_with_image 50 160 6 6 3 1024 768).textW = usableW := by
  have hg : (0 : ℚ) ≤ 6 := by norm_num
  have hi : (9 / 10) * usableW ≤ (160 : ℚ) := by
    norm_num [usableW, pageW, lMargin, rMargin]
  have h := (C8_narrow_fallback 50 160 6 6 3 1024 768).2 hg hi
  exact ⟨hg, hi, h.1, h.2⟩

/-- C3 counterexample: a provider failing transiently (503) on the first two
calls and succeeding on the third (`N = 3`), with any configured budget
`maxRetries ≥ 3`, should per the claim be retried twice and succeed.  The code
makes exactly 2 calls and raises the error: there is no attempt budget and no
exponential backoff. -/
theorem C3_counterexample :
    (generate_image_hf
        (fun n => if n ≤ 1 then ⟨503, ⟨true, 0⟩⟩ else ⟨200, ⟨true, 1⟩⟩)).result = none
    ∧ (generate_image_hf
        (fun n => if n ≤ 1 then ⟨503, ⟨true, 0⟩⟩ else ⟨200, ⟨true, 1⟩⟩)).calls = 2 := by
  decide

/-- C3 (amended): only the Hugging Face path retries, exactly once, after a
fixed 2-second delay, and only when the first response status is 503 or 524;
a provider that fails once with 503/524 and then succeeds is retried exactly
once.  No exponential/capped/jittered backoff and no configurable attempt
budget exist. -/
theorem C3_single_fixed_retry (resp : Nat → HfResp)
    (h0 : (resp 0).status = 503 ∨ (resp 0).status = 524)
    (h1 : (resp 1).status < 400) :
    generate_image_hf resp = ⟨2, [2], some (resp 1).img⟩ := by
  unfold generate_image_hf post_hf_bytes
  rw [if_pos h0]
  dsimp only
  rw [if_neg (not_le.mpr h1)]

/-- C3 amended witness: 503 then 200. -/
theorem C3_single_fixed_retry_witness :
    ((fun n => if n = 0 then (⟨503, ⟨true, 0⟩⟩ : HfResp) else ⟨200, ⟨true, 5⟩⟩) 0).status = 503
    ∧ ((fun n => if n = 0 then (⟨503, ⟨true, 0⟩⟩ : HfResp) else ⟨200, ⟨true, 5⟩⟩) 1).status < 400
    ∧ generate_image_hf
        (fun n => if n = 0 then (⟨503, ⟨true, 0⟩⟩ : HfResp) else ⟨200, ⟨true, 5⟩⟩)
      = ⟨2, [2], some ⟨true, 5⟩⟩ := by
  refine ⟨rfl, by decide, ?_⟩
  exact C3_single_fixed_retry
    (fun n => if n = 0 then (⟨503, ⟨true, 0⟩⟩ : HfResp) else ⟨200, ⟨true, 5⟩⟩)
    (Or.inl rfl) (by decide)

/-- C4 counterexample: two documents, the first hitting a billing error with
`--fail-on-router-error` set.  The batch stops with zero documents completed
even though the second document would have processed fine. -/
theorem C4_counterexample :
    main_batch true [⟨true, []⟩, ⟨false, []⟩] = (0, some "SystemExit")
    ∧ generar_pdf_de_md true (⟨false, []⟩ : DocSpec) = none := by
  decide

theorem processParas_false_none :
    ∀ (bs : List Bool) (blocked : Bool), processParas false bs blocked = none := by
  intro bs
  induction bs with
  | nil => intro blocked; rfl
  | cons b t ih => intro blocked; cases blocked <;> cases b <;> simp [processParas, ih]

/-- C4 (amended): with `fail_on_router_error` unset (the default), a provider
billing failure in any document never stops the batch — every document in the
list is processed (billing degrades to logged text, other provider failures to
the placeholder).  With the flag set, a billing failure raises `SystemExit`
and aborts the whole batch, as the counterexample shows; the loop in `main`
has no exception handler of its own. -/
theorem C4_batch_nonstrict (docs : List DocSpec) :
    main_batch false docs = (docs.length, none) := by
  induction docs with
  | nil => rfl
  | cons d ds ih =>
    have hdoc : generar_pdf_de_md false d = none := by
      unfold generar_pdf_de_md
      rw [if_neg (by simp)]
      exact processParas_false_none _ _
    unfold main_batch
    rw [hdoc, ih]
    simp

theorem obtener_imagen_hit (hash : String → String) (fetch : Nat → FetchOutcome)
    (prompt : String) (st : CacheSt) (img : ImgData)
    (hlook : st.store.lookup (hash prompt) = some img) (hdec : img.decodable = true) :
    obtener_imagen hash fetch prompt st = (.real img, st) := by
  unfold obtener_imagen
  rw [hlook]
  dsimp only
  rw [if_pos hdec]

theorem lookup_storePut (k : String) (v : ImgData) (l : List (String × ImgData)) :
    (storePut k v l).lookup k = some v := by
  unfold storePut
  simp [List.lookup]

/-- C5: with an empty cache entry for the prompt's key and a first fetch that
succeeds and decodes, the first acquisition performs exactly one provider
call, caches the image, and every later acquisition with the same prompt is a
cache hit: across the whole process lifetime the provider is called exactly
once. -/
theorem C5_cache_single_fetch (hash : String → String) (fetch : Nat → FetchOutcome)
    (prompt : String) (st : CacheSt) (img : ImgData)
    (hmiss : st.store.lookup (hash prompt) = none)
    (hfetch : fetch st.fetchCalls = .ok img)
    (hdec : img.decodable = true) :
    (obtener_imagen hash fetch prompt st).1 = .real img
    ∧ (obtener_imagen hash fetch prompt st).2.fetchCalls = st.fetchCalls + 1
    ∧ (obtener_imagen hash fetch prompt (obtener_imagen hash fetch prompt st).2).1 = .real img
    ∧ ∀ n, (obtenerIter hash fetch prompt n
        (obtener_imagen hash fetch prompt st).2).fetchCalls = st.fetchCalls + 1 := by
  have hstep : obtener_imagen hash fetch prompt st
      = (.real img, ⟨storePut (hash prompt) img st.store, st.fetchCalls + 1⟩) := by
    unfold obtener_imagen obtenerFetch
    rw [hmiss]
    dsimp only
    rw [hfetch]
    dsimp only
    rw [if_pos hdec]
  have hlook2 : (obtener_imagen hash fetch prompt st).2.store.lookup (hash prompt)
      = some img := by
    rw [hstep]
    exact lookup_storePut _ _ _
  have hhit : obtener_imagen hash fetch prompt (obtener_imagen hash fetch prompt st).2
      = (.real img, (obtener_imagen hash fetch prompt st).2) :=
    obtener_imagen_hit hash fetch prompt _ img hlook2 hdec
  refine ⟨by rw [hstep], by rw [hstep], by rw [hhit], ?_⟩
  intro n
  induction n with
  | zero =>
    rw [hstep]
    rfl
  | succ m ihm =>
    show (obtenerIter hash fetch prompt m
      (obtener_imagen hash fetch prompt (obtener_imagen hash fetch prompt st).2).2).fetchCalls = _
    rw [hhit]
    exact ihm

/-- C5 witness: two (and arbitrarily many) acquisitions of prompt `"p"`
against an initially empty cache, with a decodable fetch result. -/
theorem C5_cache_single_fetch_witness :
    ((⟨[], 0⟩ : CacheSt).store.lookup ((fun _ => "k") "p") = none)
    ∧ ((fun _ => FetchOutcome.ok ⟨true, 7⟩) (0 : Nat) = .ok ⟨true, 7⟩)
    ∧ (⟨true, 7⟩ : ImgData).decodable = true
    ∧ (obtener_imagen (fun _ => "k") (fun _ => .ok ⟨true, 7⟩) "p" ⟨[], 0⟩).1 = .real ⟨true, 7⟩
    ∧ (obtener_imagen (fun _ => "k") (fun _ => .ok ⟨true, 7⟩) "p"
        (obtener_imagen (fun _ => "k") (fun _ => .ok ⟨true, 7⟩) "p" ⟨[], 0⟩).2).1
      = .real ⟨true, 7⟩
    ∧ ∀ n, (obtenerIter (fun _ => "k") (fun _ => .ok ⟨true, 7⟩) "p" n
        (obtener_imagen (fun _ => "k") (fun _ => .ok ⟨true, 7⟩) "p" ⟨[], 0⟩).2).fetchCalls
      = 1 := by
  have h := C5_cache_single_fetch (fun _ => "k") (fun _ => .ok ⟨true, 7⟩) "p"
    ⟨[], 0⟩ ⟨true, 7⟩ rfl rfl rfl
  exact ⟨rfl, rfl, rfl, h.1, h.2.2.1, fun n => h.2.2.2 n⟩

/-- C7 counterexample: an HTTP 401 response is raised as the GENERIC
`ImageRouterError` (not the distinct billing kind), and `obtener_imagen` masks
it with the placeholder image even though no graceful-degradation opt-in
exists at that layer. -/
theorem C7_counterexample :
    post_openai_images ⟨401, "Unauthorized", false, ⟨true, 0⟩⟩ = .genericErr "HTTP 401"
    ∧ (obtener_imagen (fun _ => "k")
        (fun _ => fetchOfOai ⟨401, "Unauthorized", false, ⟨true, 0⟩⟩) "p" ⟨[], 0⟩).1
      = .placeholder := by
  decide

/-- C7 (amended): only an HTTP 403 whose extracted error message contains
`"deposit"` raises the distinct `ImageRouterBillingRequired`; it is never
retried (a single provider call is made) and `obtener_imagen` re-raises it
past the placeholder fallback.  An HTTP 401 raises the generic
`ImageRouterError`, which `obtener_imagen` always masks with the placeholder,
opt-in or not. -/
theorem C7_auth_errors (r : OaiResp) (hash : String → String) (prompt : String)
    (st : CacheSt) (hmiss : st.store.lookup (hash prompt) = none) :
    (r.status = 403 → strContains (pyLower r.errMsg) "deposit" = true →
      post_openai_images r = .billing r.errMsg
      ∧ (obtener_imagen hash (fun _ => fetchOfOai r) prompt st).1 = .raisedBilling r.errMsg)
    ∧ (r.status = 401 →
      post_openai_images r = .genericErr "HTTP 401"
      ∧ (obtener_imagen hash (fun _ => fetchOfOai r) prompt st).1 = .placeholder)
    ∧ (obtener_imagen hash (fun _ => fetchOfOai r) prompt st).2.fetchCalls
        = st.fetchCalls + 1 := by
  refine ⟨?_, ?_, ?_⟩
  · intro h403 hdep
    have hpost : post_openai_images r = .billing r.errMsg := by
      unfold post_openai_images
      rw [if_pos ⟨h403, hdep⟩]
    refine ⟨hpost, ?_⟩
    unfold obtener_imagen obtenerFetch
    rw [hmiss]
    dsimp only
    unfold fetchOfOai
    rw [hpost]
  · intro h401
    have hpost : post_openai_images r = .genericErr "HTTP 401" := by
      unfold post_openai_images
      rw [if_neg (by rw [h401] at *; rintro ⟨h, -⟩; cases h), if_pos (by omega), h401]
      decide
    refine ⟨hpost, ?_⟩
    unfold obtener_imagen obtenerFetch
    rw [hmiss]
    dsimp only
    unfold fetchOfOai
    rw [hpost]
  · unfold obtener_imagen obtenerFetch
    rw [hmiss]
    dsimp only
    unfold fetchOfOai
    cases hpost : post_openai_images r with
    | billing m => rfl
    | genericErr m => rfl
    | ok i =>
      dsimp only
      by_cases hdec : i.decodable = true
      · rw [if_pos hdec]
      · rw [if_neg hdec]

/-- C7 amended witness: a concrete 403 "deposit required" response is the
distinct billing error, re-raised by the cache layer in one provider call. -/
theorem C7_auth_errors_witness :
    post_openai_images ⟨403, "deposit required", false, ⟨true, 0⟩⟩
      = .billing "deposit required"
    ∧ (obtener_imagen (fun _ => "k")
        (fun _ => fetchOfOai ⟨403, "deposit required", false, ⟨true, 0⟩⟩) "p" ⟨[], 0⟩).1
      = .raisedBilling "deposit required"
    ∧ (obtener_imagen (fun _ => "k")
        (fun _ => fetchOfOai ⟨403, "deposit required", false, ⟨true, 0⟩⟩) "p"
        ⟨[], 0⟩).2.fetchCalls = 1 := by
  have h := C7_auth_errors ⟨403, "deposit required", false, ⟨true, 0⟩⟩
    (fun _ => "k") "p" ⟨[], 0⟩ rfl
  have h1 := h.1 rfl (by decide)
  exact ⟨h1.1, h1.2, h.2.2⟩
